import Mathlib

/-!
Shallow embedding of the rmod_gen Rust-code-generation library and proofs
about its rendering engine.  Each definition transcribes the function of the
same name from the repository sources (src/lib.rs, src/rust_component.rs,
src/rust_struct.rs, src/rust_enum.rs, src/rust_method.rs, src/rust_module.rs,
src/rust_impl.rs, src/rust_variable.rs, src/rust_text.rs).  Rust `String`
becomes Lean `String`, `Vec<T>` becomes `List T`, `usize` indent levels
become `Nat`.  Literal curly braces inside string literals are written with
the escapes \x7b and \x7d, and the apostrophe with \x27.
-/

namespace Rmod

/-- lib.rs: `const TAB_SIZE: usize = 4;` -/
def TAB_SIZE : Nat := 4

/-- Rust `str::repeat`: `n` copies of `s` concatenated. -/
def strRepeat (s : String) : Nat → String
  | 0 => ""
  | n + 1 => s ++ strRepeat s n

/-- lib.rs: `indent_string` (default feature set, spaces):
`" ".repeat(TAB_SIZE).repeat(indent_level)`. -/
def indent_string (indent_level : Nat) : String :=
  strRepeat (strRepeat " " TAB_SIZE) indent_level

/-- rust_component.rs: the `Visibility` enum. -/
inductive Visibility where
  | Private
  | Public
  | CrateVisible
  deriving DecidableEq, Repr

/-- rust_component.rs: `impl Display for Visibility`. -/
def Visibility.display : Visibility → String
  | .Private => ""
  | .Public => "pub"
  | .CrateVisible => "pub(crate)"

/-- rust_component.rs: the `Field` struct: name, type and visibility. -/
structure Field where
  name : String
  field_type : String
  visibility : Visibility
  deriving DecidableEq, Repr

/-- rust_component.rs: `Field::new`. -/
def Field.new (name field_type : String) (visibility : Visibility) : Field :=
  ⟨name, field_type, visibility⟩

/-- rust_component.rs: `Field::private_fast` (also the result of
`Field::private`): a field with `Private` visibility. -/
def Field.private_fast (name field_type : String) : Field :=
  ⟨name, field_type, Visibility.Private⟩

/-- rust_component.rs: `impl Display for Field`.  Note that the `Public` and
`CrateVisible` cases do emit the visibility keyword. -/
def Field.display (f : Field) : String :=
  match f.visibility with
  | .Private => f.name ++ ": " ++ f.field_type
  | .Public => "pub " ++ f.name ++ ": " ++ f.field_type
  | .CrateVisible => "pub(crate) " ++ f.name ++ ": " ++ f.field_type

/-- Rust `[String]::join(sep)`: elements interleaved with `sep`. -/
def joinSep (sep : String) : List String → String
  | [] => ""
  | [x] => x
  | x :: y :: xs => x ++ sep ++ joinSep sep (y :: xs)

/-- rust_component.rs: `RustTemplateUsage::create_lifetime_string`: each
lifetime identifier prefixed with an apostrophe, separated by `", "`. -/
def create_lifetime_string : List String → String
  | [] => ""
  | [l] => "\x27" ++ l
  | l :: l2 :: ls => "\x27" ++ l ++ ", " ++ create_lifetime_string (l2 :: ls)

/-- rust_component.rs: `RustTemplateUsage::create_template_string`.  The
emptiness tests are on the joined strings, exactly as in the source. -/
def create_template_string (templates lifetimes : List String) : String :=
  let templatesS := joinSep ", " templates
  let lifetimesS := create_lifetime_string lifetimes
  if lifetimesS = "" ∧ templatesS = "" then ""
  else if lifetimesS = "" then "<" ++ templatesS ++ ">"
  else if templatesS = "" then "<" ++ lifetimesS ++ ">"
  else "<" ++ lifetimesS ++ ", " ++ templatesS ++ ">"

/-- rust_enum.rs: the `EnumVariant` enum. -/
inductive EnumVariant where
  | StructVariant (name : String) (fields : List Field)
  | ValueVariant (name : String) (types : List String)
  | EmptyVariant (name : String)
  deriving DecidableEq, Repr

/-- rust_enum.rs: `EnumVariant::new_struct`. -/
def EnumVariant.new_struct (name : String) (fields : List Field) : EnumVariant :=
  .StructVariant name fields

/-- rust_enum.rs: `EnumVariant::new_value`. -/
def EnumVariant.new_value (name : String) (types : List String) : EnumVariant :=
  .ValueVariant name types

/-- rust_enum.rs: `EnumVariant::new_empty`. -/
def EnumVariant.new_empty (name : String) : EnumVariant :=
  .EmptyVariant name

/-- rust_enum.rs: the `RustEnum` struct (field order as declared). -/
structure RustEnum where
  name : String
  visibility : Visibility
  variants : List EnumVariant
  templates : List String
  lifetimes : List String
  extra : String
  cfg : String
  deriving DecidableEq, Repr

/-- rust_enum.rs: `RustEnum::new`. -/
def RustEnum.new (name : String) : RustEnum :=
  ⟨name, .Private, [], [], [], "", ""⟩

/-- rust_struct.rs: the `RustStruct` struct (field order as declared). -/
structure RustStruct where
  name : String
  fields : List Field
  visibility : Visibility
  templates : List String
  lifetimes : List String
  extra : String
  cfg : String
  deriving DecidableEq, Repr

/-- rust_struct.rs: `RustStruct::new`. -/
def RustStruct.new (name : String) : RustStruct :=
  ⟨name, [], .Private, [], [], "", ""⟩

/-- rust_method.rs: the `RustMethod` struct (field order as declared). -/
structure RustMethod where
  name : String
  fn_type : String
  visibility : Visibility
  arguments : List String
  return_type : String
  body : String
  templates : List String
  lifetimes : List String
  deriving DecidableEq, Repr

/-- rust_method.rs: `RustMethod::new`. -/
def RustMethod.new (name : String) : RustMethod :=
  ⟨name, "", .Private, [], "", "", [], []⟩

/-- rust_variable.rs: the `VariableType` enum. -/
inductive VariableType where
  | Static
  | Const
  | Regular
  deriving DecidableEq, Repr

/-- rust_variable.rs: the `RustVariable` struct (field order as declared). -/
structure RustVariable where
  visibility : Visibility
  name : String
  value : String
  tp : String
  variable_type : VariableType
  is_mut : Bool
  deriving DecidableEq, Repr

/-- rust_variable.rs: `RustVariable::new_let`. -/
def RustVariable.new_let (name : String) : RustVariable :=
  ⟨.Private, name, "", "", .Regular, false⟩

/-- rust_variable.rs: `RustVariable::new_const`. -/
def RustVariable.new_const (name : String) : RustVariable :=
  ⟨.Private, name, "", "", .Const, false⟩

/-- rust_variable.rs: `RustVariable::new_static`. -/
def RustVariable.new_static (name : String) : RustVariable :=
  ⟨.Private, name, "", "", .Static, false⟩

/-- rust_text.rs: the `RustText` struct. -/
structure RustText where
  text : String
  deriving DecidableEq, Repr

/-- rust_text.rs: `RustText::new`. -/
def RustText.new (text : String) : RustText :=
  ⟨text⟩

mutual

/-- rust_component.rs: the `RustComponent` enum as declared in the compiled
crate (lib.rs).  Its variants are exactly Module, Struct, Enum, EnumVariant,
Method, Implementation, Variable and Text; there is no Trait variant
(lib.rs never declares `mod rust_trait`). -/
inductive RustComponent where
  | Module : RustModule → RustComponent
  | Struct : RustStruct → RustComponent
  | Enum : RustEnum → RustComponent
  | EnumVariant : Rmod.EnumVariant → RustComponent
  | Method : RustMethod → RustComponent
  | Implementation : RustImplementation → RustComponent
  | Variable : RustVariable → RustComponent
  | Text : RustText → RustComponent

/-- rust_module.rs: the `RustModule` struct (field order as declared). -/
inductive RustModule where
  | mk (name : String) (visibility : Visibility) (imports : List String)
      (components : List RustComponent) (cfg_options : String)

/-- rust_impl.rs: the `RustImplementation` struct (field order as declared). -/
inductive RustImplementation where
  | mk (name : String) (components : List RustComponent)
      (impl_lifetimes : List String) (target_lifetimes : List String)
      (impl_templates : List String) (target_templates : List String)
      (extra : String)

end

/-- rust_module.rs: `RustModule::new`. -/
def RustModule.new (name : String) : RustModule :=
  .mk name .Private [] [] ""

/-- rust_impl.rs: `RustImplementation::new`. -/
def RustImplementation.new (name : String) : RustImplementation :=
  .mk name [] [] [] [] [] ""

/-- rust_impl.rs: `RustImplementation::new_for`: the name becomes the
literal phrase `lhs for rhs`. -/
def RustImplementation.new_for (lhs rhs : String) : RustImplementation :=
  .mk (lhs ++ " for " ++ rhs) [] [] [] [] [] ""

/-- The name of the `RustComponent` variant a value was built with, as the
identifier appears in rust_component.rs. -/
def RustComponent.variantName : RustComponent → String
  | .Module _ => "Module"
  | .Struct _ => "Struct"
  | .Enum _ => "Enum"
  | .EnumVariant _ => "EnumVariant"
  | .Method _ => "Method"
  | .Implementation _ => "Implementation"
  | .Variable _ => "Variable"
  | .Text _ => "Text"

/-- The list of variant identifiers of the `RustComponent` enum exactly as
declared at rust_component.rs lines 57-67. -/
def rustComponentVariantNames : List String :=
  ["Module", "Struct", "Enum", "EnumVariant", "Method", "Implementation",
   "Variable", "Text"]

/-- rust_module.rs: `impl Into<RustComponent> for RustModule`. -/
def RustModule.intoComponent (m : RustModule) : RustComponent := .Module m

/-- rust_struct.rs: `impl Into<RustComponent> for RustStruct`. -/
def RustStruct.intoComponent (s : RustStruct) : RustComponent := .Struct s

/-- rust_enum.rs: `impl Into<RustComponent> for RustEnum`. -/
def RustEnum.intoComponent (e : RustEnum) : RustComponent := .Enum e

/-- rust_enum.rs: `impl Into<RustComponent> for EnumVariant`. -/
def EnumVariant.intoComponent (v : EnumVariant) : RustComponent := .EnumVariant v

/-- rust_method.rs: `impl Into<RustComponent> for RustMethod`. -/
def RustMethod.intoComponent (m : RustMethod) : RustComponent := .Method m

/-- rust_impl.rs: `impl Into<RustComponent> for RustImplementation`. -/
def RustImplementation.intoComponent (i : RustImplementation) : RustComponent :=
  .Implementation i

/-- rust_variable.rs: `impl Into<RustComponent> for RustVariable`. -/
def RustVariable.intoComponent (v : RustVariable) : RustComponent := .Variable v

/-- rust_text.rs: `impl Into<RustComponent> for RustText`. -/
def RustText.intoComponent (t : RustText) : RustComponent := .Text t

/-- rust_enum.rs: `EnumVariant::to_rust_string`. -/
def EnumVariant.to_rust_string (v : EnumVariant) (indent_level : Nat) : String :=
  let indent_str := indent_string indent_level
  match v with
  | .StructVariant name fields =>
      let nested_indent_string := indent_string (indent_level + 1)
      let f_str := String.join (fields.map (fun f => nested_indent_string ++ f.display ++ ",\n"))
      indent_str ++ name ++ " \x7b\n" ++ f_str ++ indent_str ++ "\x7d,"
  | .ValueVariant name types =>
      indent_str ++ name ++ "(" ++ joinSep ", " types ++ "),"
  | .EmptyVariant name =>
      indent_str ++ name ++ ","

/-- rust_enum.rs: `RustEnum::to_rust_string`.  Every collected line,
including the (already indented) multi-line rendering of each variant, is prefixed
with the indent string of this enum itself and suffixed with a newline. -/
def RustEnum.to_rust_string (e : RustEnum) (indent_level : Nat) : String :=
  let crate_line :=
    match e.visibility with
    | .Private => "enum " ++ e.name ++ create_template_string e.templates e.lifetimes
    | v => v.display ++ " enum " ++ e.name ++ create_template_string e.templates e.lifetimes
  let header := if e.extra = "" then crate_line ++ " \x7b" else crate_line ++ " " ++ e.extra ++ " \x7b"
  let lines :=
    (if e.cfg = "" then [] else [e.cfg])
      ++ [header]
      ++ e.variants.map (fun v => v.to_rust_string (indent_level + 1))
      ++ ["\x7d"]
  String.join (lines.map (fun l => indent_string indent_level ++ l ++ "\n"))

/-- rust_struct.rs: `RustStruct::to_rust_string`.  Field lines use the fixed
`indent_string(1)` before the per-line prefix is added. -/
def RustStruct.to_rust_string (s : RustStruct) (indent_level : Nat) : String :=
  let crate_line :=
    match s.visibility with
    | .Private => "struct " ++ s.name ++ create_template_string s.templates s.lifetimes
    | v => v.display ++ " struct " ++ s.name ++ create_template_string s.templates s.lifetimes
  let header := if s.extra = "" then crate_line ++ " \x7b" else crate_line ++ " " ++ s.extra ++ " \x7b"
  let lines :=
    (if s.cfg = "" then [] else [s.cfg])
      ++ [header]
      ++ s.fields.map (fun f => indent_string 1 ++ f.display ++ ",")
      ++ ["\x7d"]
  String.join (lines.map (fun l => indent_string indent_level ++ l ++ "\n"))

/-- Rust `str::lines()`: split on newline, the final line ending optional,
a trailing carriage return stripped from each line. -/
def rustLines (s : String) : List String :=
  if s = "" then []
  else
    let parts := s.splitOn "\n"
    let parts := if parts.getLast? = some "" then parts.dropLast else parts
    parts.map (fun l => if l.endsWith "\r" then l.dropRight 1 else l)

/-- rust_method.rs: `RustMethod::to_rust_string`: the signature pieces pushed
left to right (each optional piece contributing nothing when absent), then
the body lines re-indented one level deeper, then the closing brace. -/
def RustMethod.to_rust_string (m : RustMethod) (indent_level : Nat) : String :=
  let base_indent_string := indent_string indent_level
  let next_level_indent_string := indent_string (indent_level + 1)
  let templates_string := create_template_string m.templates m.lifetimes
  String.join
    ([base_indent_string]
      ++ (if m.visibility = .Private then [] else [m.visibility.display, " "])
      ++ (if m.fn_type = "" then [] else [m.fn_type, " "])
      ++ ["fn ", m.name]
      ++ (if templates_string = "" then [] else [templates_string])
      ++ ["(", joinSep ", " m.arguments, ") "]
      ++ (if m.return_type = "" then [] else ["-> ", m.return_type, " "])
      ++ ["\x7b\n"]
      ++ (rustLines m.body).map (fun line => next_level_indent_string ++ line ++ "\n")
      ++ [base_indent_string, "\x7d\n"])

/-- rust_variable.rs: `RustVariable::to_rust_string`: a single line with no
trailing newline, each optional piece contributing nothing when absent. -/
def RustVariable.to_rust_string (v : RustVariable) (indent_level : Nat) : String :=
  String.join
    ([indent_string indent_level]
      ++ (if v.visibility = .Private then [] else [v.visibility.display, " "])
      ++ [match v.variable_type with
          | .Static => "static "
          | .Const => "const "
          | .Regular => "let "]
      ++ (if v.is_mut then ["mut "] else [])
      ++ [v.name]
      ++ (if v.tp = "" then [] else [": ", v.tp])
      ++ (if v.value = "" then [] else [" = ", v.value])
      ++ [";"])

/-- rust_text.rs: `RustText::to_rust_string`: the raw text prefixed with the
indent string, nothing appended. -/
def RustText.to_rust_string (t : RustText) (indent_level : Nat) : String :=
  indent_string indent_level ++ t.text

mutual

/-- rust_component.rs: `RustComponent::to_rust_string`: dispatch on the
variant. -/
def RustComponent.to_rust_string : RustComponent → Nat → String
  | .Module m, indent_level => m.to_rust_string indent_level
  | .Struct s, indent_level => s.to_rust_string indent_level
  | .Enum e, indent_level => e.to_rust_string indent_level
  | .EnumVariant v, indent_level => v.to_rust_string indent_level
  | .Method m, indent_level => m.to_rust_string indent_level
  | .Implementation i, indent_level => i.to_rust_string indent_level
  | .Variable v, indent_level => v.to_rust_string indent_level
  | .Text t, indent_level => t.to_rust_string indent_level

/-- rust_module.rs: `RustModule::to_rust_string`: an unindented cfg line if
any, the `mod` header, each import one level deeper followed by one blank
line if any imports exist, each child component rendered one level deeper,
the closing brace; all fragments concatenated with no separator. -/
def RustModule.to_rust_string : RustModule → Nat → String
  | .mk name visibility imports components cfg_options, indent_level =>
      let indent_str := indent_string indent_level
      let import_indent_string := indent_string (indent_level + 1)
      let importsS := String.join (imports.map (fun s => import_indent_string ++ s ++ ";\n"))
      String.join
        ((if cfg_options = "" then [] else [cfg_options ++ "\n"])
          ++ [(match visibility with
              | .Private => indent_str ++ "mod " ++ name ++ " \x7b\n"
              | .Public => indent_str ++ "pub mod " ++ name ++ " \x7b\n"
              | .CrateVisible => indent_str ++ "pub(crate) mod " ++ name ++ " \x7b\n")]
          ++ (if importsS = "" then [] else [importsS, "\n"])
          ++ componentsRendered components (indent_level + 1)
          ++ [indent_str ++ "\x7d\n"])

/-- rust_impl.rs: `RustImplementation::to_rust_string`: the collected lines
joined with a newline; the extra text, when non-empty, is placed before the
whole `impl` definition line. -/
def RustImplementation.to_rust_string : RustImplementation → Nat → String
  | .mk name components impl_lifetimes target_lifetimes impl_templates target_templates extra,
      indent_level =>
      let base_indent_level := indent_string indent_level
      let definition_line :=
        "impl" ++ create_template_string impl_templates impl_lifetimes ++ " " ++ name
          ++ create_template_string target_templates target_lifetimes
      joinSep "\n"
        ([if extra = "" then base_indent_level ++ definition_line ++ " \x7b"
          else base_indent_level ++ extra ++ " " ++ definition_line ++ " \x7b"]
          ++ implComponentLines components indent_level
          ++ [base_indent_level ++ "\x7d\n"])

/-- rust_module.rs: the loop extending `contents` with each child component
rendered at the given level. -/
def componentsRendered : List RustComponent → Nat → List String
  | [], _ => []
  | c :: cs, indent_level => c.to_rust_string indent_level :: componentsRendered cs indent_level

/-- rust_impl.rs: the loop pushing the rendering of each child at one level deeper
followed by an empty line entry. -/
def implComponentLines : List RustComponent → Nat → List String
  | [], _ => []
  | c :: cs, indent_level =>
      c.to_rust_string (indent_level + 1) :: "" :: implComponentLines cs indent_level

end

/-- rust_enum.rs: the `EnumVariantBuilder` struct. -/
structure EnumVariantBuilder where
  name : String
  struct_variant : Bool
  fields : List (String × String)
  deriving DecidableEq, Repr

/-- rust_enum.rs: `EnumVariantBuilder::new` (reached via `EnumVariant::build`). -/
def EnumVariantBuilder.new (name : String) : EnumVariantBuilder :=
  ⟨name, false, []⟩

/-- rust_enum.rs: `EnumVariantBuilder::push_field` (also `with_field`): sets
the struct-variant flag and appends the (name, type) pair. -/
def EnumVariantBuilder.push_field (b : EnumVariantBuilder) (name tp : String) :
    EnumVariantBuilder :=
  { b with struct_variant := true, fields := b.fields ++ [(name, tp)] }

/-- rust_enum.rs: `EnumVariantBuilder::push_value` (also `with_value`):
appends the pair whose name is the decimal rendering of the current number
of stored pairs. -/
def EnumVariantBuilder.push_value (b : EnumVariantBuilder) (tp : String) :
    EnumVariantBuilder :=
  { b with fields := b.fields ++ [(toString b.fields.length, tp)] }

/-- rust_enum.rs: `EnumVariantBuilder::fields`: every stored pair becomes a
private field. -/
def EnumVariantBuilder.fieldsAsFields (b : EnumVariantBuilder) : List Field :=
  b.fields.map (fun p => Field.private_fast p.1 p.2)

/-- rust_enum.rs: `EnumVariantBuilder::types`: the types of the stored pairs. -/
def EnumVariantBuilder.types (b : EnumVariantBuilder) : List String :=
  b.fields.map (fun p => p.2)

/-- rust_enum.rs: `EnumVariantBuilder::build`. -/
def EnumVariantBuilder.build (b : EnumVariantBuilder) : EnumVariant :=
  if b.struct_variant then .StructVariant b.name b.fieldsAsFields
  else if b.fields = [] then .EmptyVariant b.name
  else .ValueVariant b.name b.types

/-- One call made on an `EnumVariantBuilder`: `push_field`/`with_field` with
a name and a type, or `push_value`/`with_value` with a type. -/
inductive BuilderCall where
  | field (name tp : String)
  | value (tp : String)
  deriving DecidableEq, Repr

/-- Whether a builder call is a named-field addition. -/
def BuilderCall.isField : BuilderCall → Bool
  | .field _ _ => true
  | .value _ => false

/-- The type a builder call adds. -/
def BuilderCall.tp : BuilderCall → String
  | .field _ t => t
  | .value t => t

/-- Apply one builder call. -/
def applyCall (b : EnumVariantBuilder) : BuilderCall → EnumVariantBuilder
  | .field n t => b.push_field n t
  | .value t => b.push_value t

/-- Apply a sequence of builder calls in order. -/
def applyCalls (b : EnumVariantBuilder) : List BuilderCall → EnumVariantBuilder
  | [] => b
  | c :: cs => applyCalls (applyCall b c) cs

/-- The (name, type) pairs a sequence of builder calls stores when `k` pairs
were already stored: a field call stores its own name, a value call stores
the decimal rendering of the number of additions made before it. -/
def pairsFrom : Nat → List BuilderCall → List (String × String)
  | _, [] => []
  | k, .field n t :: cs => (n, t) :: pairsFrom (k + 1) cs
  | k, .value t :: cs => (toString k, t) :: pairsFrom (k + 1) cs

/-- The (name, type) pairs of just the named-field calls of a sequence. -/
def namedPairs : List BuilderCall → List (String × String)
  | [] => []
  | .field n t :: cs => (n, t) :: namedPairs cs
  | .value _ :: cs => namedPairs cs

/-- Naive decidable substring test: some suffix of `s` starts with `pat`. -/
def strContains (s pat : String) : Bool :=
  (List.range (s.length + 1)).any (fun i => ((s.drop i).take pat.length) == pat)

/-!
Theorems.  The helper lemmas about `String` and the joining helpers come
first; the theorem of each claim carries a doc comment naming the claim.
-/

theorem sext {a b : String} (h : a.data = b.data) : a = b := by
  cases a; cases b; cases h; rfl

theorem sappend_empty (a : String) : a ++ "" = a := by
  apply sext; simp [String.data_append]

theorem sempty_append (a : String) : "" ++ a = a := by
  apply sext; simp [String.data_append]

theorem sappend_assoc (a b c : String) : a ++ b ++ c = a ++ (b ++ c) := by
  apply sext; simp [String.data_append]

theorem sappend_eq_empty {a b : String} : a ++ b = "" ↔ a = "" ∧ b = "" := by
  constructor
  · intro h
    have hd : (a ++ b).data = ([] : List Char) := by rw [h]
    rw [String.data_append, List.append_eq_nil] at hd
    exact ⟨sext (by rw [hd.1]), sext (by rw [hd.2])⟩
  · rintro ⟨rfl, rfl⟩; rfl

theorem sfoldl_append (l : List String) (a : String) :
    l.foldl (fun r s => r ++ s) a = a ++ String.join l := by
  induction l generalizing a with
  | nil => simp [String.join, sappend_empty]
  | cons s l ih =>
      show l.foldl _ (a ++ s) = a ++ String.join (s :: l)
      rw [ih]
      show a ++ s ++ String.join l = a ++ (s :: l).foldl (fun r s => r ++ s) ""
      show a ++ s ++ String.join l = a ++ l.foldl (fun r s => r ++ s) ("" ++ s)
      rw [ih, sappend_assoc, sempty_append]

theorem sjoin_nil : String.join [] = "" := rfl

theorem sjoin_cons (s : String) (l : List String) :
    String.join (s :: l) = s ++ String.join l := by
  show l.foldl (fun r s => r ++ s) ("" ++ s) = s ++ String.join l
  rw [sfoldl_append, sempty_append]

theorem sjoin_append (l₁ l₂ : List String) :
    String.join (l₁ ++ l₂) = String.join l₁ ++ String.join l₂ := by
  induction l₁ with
  | nil => simp [sjoin_nil, sempty_append]
  | cons s l ih => simp [sjoin_cons, ih, sappend_assoc]

theorem joinSep_cons_cons (sep a b : String) (l : List String) :
    joinSep sep (a :: b :: l) = a ++ sep ++ joinSep sep (b :: l) := rfl

theorem joinSep_append (sep : String) (l₁ l₂ : List String) (h₁ : l₁ ≠ []) (h₂ : l₂ ≠ []) :
    joinSep sep (l₁ ++ l₂) = joinSep sep l₁ ++ sep ++ joinSep sep l₂ := by
  induction l₁ with
  | nil => exact absurd rfl h₁
  | cons a l ih =>
      cases l with
      | nil =>
          cases l₂ with
          | nil => exact absurd rfl h₂
          | cons b l₂ => rfl
      | cons a₂ l' =>
          have := ih (by simp)
          simp only [List.cons_append] at *
          rw [joinSep_cons_cons, this, joinSep_cons_cons]
          simp [sappend_assoc]

theorem joinSep_ne_empty_of_head (sep a : String) (l : List String) (h : a ≠ "") :
    joinSep sep (a :: l) ≠ "" := by
  cases l with
  | nil => exact h
  | cons b l =>
      rw [joinSep_cons_cons]
      intro hc
      exact h (sappend_eq_empty.mp (sappend_eq_empty.mp hc).1).1

theorem create_lifetime_string_eq (ls : List String) :
    create_lifetime_string ls = joinSep ", " (ls.map (fun l => "\x27" ++ l)) := by
  induction ls with
  | nil => rfl
  | cons l ls ih =>
      cases ls with
      | nil => rfl
      | cons l2 ls2 =>
          rw [create_lifetime_string, ih]
          rfl

theorem create_lifetime_string_ne_empty (ls : List String) (h : ls ≠ []) :
    create_lifetime_string ls ≠ "" := by
  rw [create_lifetime_string_eq]
  cases ls with
  | nil => exact absurd rfl h
  | cons l ls =>
      apply joinSep_ne_empty_of_head
      intro hc
      have := (sappend_eq_empty.mp hc).1
      exact absurd this (by decide)

theorem joinSep_eq_empty_iff (ts : List String) (h : ∀ t ∈ ts, t ≠ "") :
    joinSep ", " ts = "" ↔ ts = [] := by
  constructor
  · intro hc
    cases ts with
    | nil => rfl
    | cons t ts =>
        exact absurd hc (joinSep_ne_empty_of_head _ _ _ (h t (by simp)))
  · rintro rfl; rfl

/-- C5 -/
theorem C5_generic_clause (templates lifetimes : List String)
    (h : ∀ t ∈ templates, t ≠ "") :
    (templates = [] ∧ lifetimes = [] → create_template_string templates lifetimes = "") ∧
    ((templates ≠ [] ∨ lifetimes ≠ []) → create_template_string templates lifetimes =
      "<" ++ joinSep ", " (lifetimes.map (fun l => "\x27" ++ l) ++ templates) ++ ">") := by
  constructor
  · rintro ⟨rfl, rfl⟩; rfl
  · intro hne
    simp only [create_template_string]
    cases hts : templates with
    | nil =>
        cases hls : lifetimes with
        | nil => subst hts hls; rcases hne with h' | h' <;> exact absurd rfl h'
        | cons l ls =>
            subst hts hls
            have hl : create_lifetime_string (l :: ls) ≠ "" :=
              create_lifetime_string_ne_empty _ (by simp)
            rw [if_neg (fun hc => hl hc.1), if_neg hl,
              if_pos (show joinSep ", " [] = "" from rfl), create_lifetime_string_eq]
            simp only [List.append_nil]
    | cons t ts =>
        subst hts
        have ht : joinSep ", " (t :: ts) ≠ "" :=
          joinSep_ne_empty_of_head _ _ _ (h t (by simp))
        cases hls : lifetimes with
        | nil =>
            subst hls
            rw [if_neg (fun hc => ht hc.2),
              if_pos (show create_lifetime_string [] = "" from rfl)]
            simp only [List.map_nil, List.nil_append]
        | cons l ls =>
            subst hls
            have hl : create_lifetime_string (l :: ls) ≠ "" :=
              create_lifetime_string_ne_empty _ (by simp)
            rw [if_neg (fun hc => hl hc.1), if_neg hl, if_neg ht,
              joinSep_append ", " _ _ (by simp) (by simp), create_lifetime_string_eq]
            simp [sappend_assoc]

/-- C5 witness -/
theorem C5_generic_clause_witness :
    create_template_string ["T"] ["a"] =
      "<" ++ joinSep ", " ((["a"].map (fun l => "\x27" ++ l)) ++ ["T"]) ++ ">" :=
  (C5_generic_clause ["T"] ["a"] (by decide)).2 (Or.inl (by decide))


theorem applyCalls_name (b : EnumVariantBuilder) (cs : List BuilderCall) :
    (applyCalls b cs).name = b.name := by
  induction cs generalizing b with
  | nil => rfl
  | cons c cs ih =>
      cases c with
      | field n t => simp [applyCalls, applyCall, EnumVariantBuilder.push_field, ih]
      | value t => simp [applyCalls, applyCall, EnumVariantBuilder.push_value, ih]

theorem applyCalls_flag (b : EnumVariantBuilder) (cs : List BuilderCall) :
    (applyCalls b cs).struct_variant = (b.struct_variant || cs.any BuilderCall.isField) := by
  induction cs generalizing b with
  | nil => simp [applyCalls]
  | cons c cs ih =>
      cases c with
      | field n t =>
          simp [applyCalls, applyCall, EnumVariantBuilder.push_field, ih, BuilderCall.isField]
      | value t =>
          simp [applyCalls, applyCall, EnumVariantBuilder.push_value, ih, BuilderCall.isField]

theorem applyCalls_fields (b : EnumVariantBuilder) (cs : List BuilderCall) :
    (applyCalls b cs).fields = b.fields ++ pairsFrom b.fields.length cs := by
  induction cs generalizing b with
  | nil => simp [applyCalls, pairsFrom]
  | cons c cs ih =>
      cases c with
      | field n t =>
          rw [applyCalls, applyCall, ih]
          simp [EnumVariantBuilder.push_field, pairsFrom, List.append_assoc]
      | value t =>
          rw [applyCalls, applyCall, ih]
          simp [EnumVariantBuilder.push_value, pairsFrom, List.append_assoc]

theorem pairsFrom_length (k : Nat) (cs : List BuilderCall) :
    (pairsFrom k cs).length = cs.length := by
  induction cs generalizing k with
  | nil => rfl
  | cons c cs ih => cases c <;> simp [pairsFrom, ih]

theorem pairsFrom_map_snd (k : Nat) (cs : List BuilderCall) :
    (pairsFrom k cs).map Prod.snd = cs.map BuilderCall.tp := by
  induction cs generalizing k with
  | nil => rfl
  | cons c cs ih => cases c <;> simp [pairsFrom, BuilderCall.tp, ih]

theorem pairsFrom_all_fields (k : Nat) (cs : List BuilderCall)
    (h : cs.all BuilderCall.isField = true) :
    pairsFrom k cs = namedPairs cs := by
  induction cs generalizing k with
  | nil => rfl
  | cons c cs ih =>
      cases c with
      | field n t =>
          simp only [List.all_cons, Bool.and_eq_true] at h
          simp [pairsFrom, namedPairs, ih _ h.2]
      | value t => simp [BuilderCall.isField, List.all_cons] at h

/-- C6: building after a sequence of calls on a fresh `EnumVariantBuilder`:
any named-field call forces a struct variant; a non-empty all-field sequence
yields exactly the added named fields as private fields; a non-empty
all-value sequence yields a value variant holding exactly the added types in
insertion order; an empty sequence yields an empty variant. -/
theorem C6_builder_kind_inference (nm : String) (cs : List BuilderCall) :
    ((cs.any BuilderCall.isField = true) →
      ∃ flds, (applyCalls (EnumVariantBuilder.new nm) cs).build =
        EnumVariant.StructVariant nm flds) ∧
    ((cs.all BuilderCall.isField = true) → cs.isEmpty = false →
      (applyCalls (EnumVariantBuilder.new nm) cs).build =
        EnumVariant.StructVariant nm
          ((namedPairs cs).map (fun p => Field.private_fast p.1 p.2))) ∧
    ((cs.all (fun c => !c.isField) = true) → cs.isEmpty = false →
      (applyCalls (EnumVariantBuilder.new nm) cs).build =
        EnumVariant.ValueVariant nm (cs.map BuilderCall.tp)) ∧
    (cs = [] →
      (applyCalls (EnumVariantBuilder.new nm) cs).build =
        EnumVariant.EmptyVariant nm) := by
  have hname := applyCalls_name (EnumVariantBuilder.new nm) cs
  have hflag := applyCalls_flag (EnumVariantBuilder.new nm) cs
  have hfields := applyCalls_fields (EnumVariantBuilder.new nm) cs
  refine ⟨?_, ?_, ?_, ?_⟩
  · intro hf
    refine ⟨(applyCalls (EnumVariantBuilder.new nm) cs).fieldsAsFields, ?_⟩
    rw [EnumVariantBuilder.build, if_pos (by rw [hflag, hf]; rfl), hname]
    rfl
  · intro hall hne
    have hf : cs.any BuilderCall.isField = true := by
      cases cs with
      | nil => simp at hne
      | cons c cs =>
          simp only [List.all_cons, Bool.and_eq_true] at hall
          simp [List.any_cons, hall.1]
    rw [EnumVariantBuilder.build, if_pos (by rw [hflag, hf]; rfl), hname,
      EnumVariantBuilder.fieldsAsFields, hfields]
    simp only [EnumVariantBuilder.new, List.nil_append, List.length_nil]
    rw [pairsFrom_all_fields 0 cs hall]
  · intro hall hne
    have hf : cs.any BuilderCall.isField = false := by
      rw [List.any_eq_false]
      intro c hc
      have := List.all_eq_true.mp hall c hc
      simpa using this
    have hflag' : (applyCalls (EnumVariantBuilder.new nm) cs).struct_variant = false := by
      rw [hflag, hf]; rfl
    have hne' : (applyCalls (EnumVariantBuilder.new nm) cs).fields ≠ [] := by
      rw [hfields]
      simp only [EnumVariantBuilder.new, List.nil_append, List.length_nil]
      intro hc
      have := congrArg List.length hc
      rw [pairsFrom_length] at this
      cases cs with
      | nil => simp at hne
      | cons c cs => simp at this
    rw [EnumVariantBuilder.build, if_neg (by rw [hflag']; simp), if_neg hne', hname,
      EnumVariantBuilder.types, hfields]
    simp only [EnumVariantBuilder.new, List.nil_append, List.length_nil]
    rw [pairsFrom_map_snd]
  · rintro rfl
    rfl

/-- C6 witness: a single named-field call yields a struct variant with that
private field. -/
theorem C6_builder_kind_inference_witness :
    (applyCalls (EnumVariantBuilder.new "Cow") [BuilderCall.field "age" "u64"]).build =
      EnumVariant.StructVariant "Cow"
        ((namedPairs [BuilderCall.field "age" "u64"]).map
          (fun p => Field.private_fast p.1 p.2)) :=
  (C6_builder_kind_inference "Cow" [BuilderCall.field "age" "u64"]).2.1 rfl rfl

/-- C10: a mixed sequence of named-field and unnamed-value calls builds a
struct variant with one private field per addition in insertion order, an
the field name of an unnamed value being the decimal rendering of the number of
additions made before it. -/
theorem C10_mixed_builder (nm : String) (cs : List BuilderCall)
    (hf : cs.any BuilderCall.isField = true)
    (hv : cs.any (fun c => !c.isField) = true) :
    (applyCalls (EnumVariantBuilder.new nm) cs).build =
      EnumVariant.StructVariant nm
        ((pairsFrom 0 cs).map (fun p => Field.private_fast p.1 p.2)) := by
  have hname := applyCalls_name (EnumVariantBuilder.new nm) cs
  have hflag := applyCalls_flag (EnumVariantBuilder.new nm) cs
  have hfields := applyCalls_fields (EnumVariantBuilder.new nm) cs
  rw [EnumVariantBuilder.build, if_pos (by rw [hflag, hf]; rfl), hname,
    EnumVariantBuilder.fieldsAsFields, hfields]
  simp only [EnumVariantBuilder.new, List.nil_append, List.length_nil]

/-- C10 witness: value, field, value: the two value additions are named "0"
and "2". -/
theorem C10_mixed_builder_witness :
    (applyCalls (EnumVariantBuilder.new "V")
        [BuilderCall.value "u64", BuilderCall.field "x" "String", BuilderCall.value "bool"]).build =
      EnumVariant.StructVariant "V"
        ((pairsFrom 0 [BuilderCall.value "u64", BuilderCall.field "x" "String",
            BuilderCall.value "bool"]).map (fun p => Field.private_fast p.1 p.2)) :=
  C10_mixed_builder "V" _ rfl rfl



/-- C1: evaluating `RustEnum::to_rust_string` at indent level 1 on an enum
with one empty variant: the variant line is prefixed with 12 spaces (3
indentation units), not the 2 units the uniform-indentation property
requires, because the enum prepends its own level-1 prefix to the variant
already rendered at level 2. -/
theorem C1_enum_indent_eval :
    RustEnum.to_rust_string
        { name := "Animals", visibility := .Private,
          variants := [EnumVariant.EmptyVariant "Cow"],
          templates := [], lifetimes := [], extra := "", cfg := "" } 1 =
      "    enum Animals \x7b\n            Cow,\n    \x7d\n" := rfl

/-- C2: evaluating `RustImplementation::to_rust_string` on an implementation
with a non-empty extra string: the extra text is emitted before the `impl`
keyword, not between the target generic clause and the opening brace. -/
theorem C2_impl_extra_eval :
    RustImplementation.to_rust_string
        (.mk ("Container" ++ " for " ++ "Carton") [] [] [] [] [] "where B: Debug") 0 =
      "where B: Debug impl Container for Carton \x7b\n\x7d\n" := by
  simp only [RustImplementation.to_rust_string, implComponentLines]
  rfl

/-- C3: the `RustComponent` union of the compiled crate has no Trait
variant: the variant list transcribed from rust_component.rs does not
contain "Trait", and the variant name of every component is one of the eight
declared names. -/
theorem C3_no_trait_variant :
    rustComponentVariantNames.contains "Trait" = false ∧
    (∀ c : RustComponent, c.variantName ∈ rustComponentVariantNames) := by
  refine ⟨rfl, ?_⟩
  intro c
  cases c <;> simp [RustComponent.variantName, rustComponentVariantNames]

/-- C4: evaluating `EnumVariant::to_rust_string` on a struct variant holding
a public field: the rendered field line carries the `pub` visibility prefix,
because the variant renderer formats fields through the Display
implementation. -/
theorem C4_struct_variant_visibility_eval :
    EnumVariant.to_rust_string
        (EnumVariant.new_struct "Cow" [Field.new "age" "u64" .Public]) 0 =
      "Cow \x7b\n    pub age: u64,\n\x7d," := rfl

/-- C8: rendering is a pure function of the state of the construct and the indent
level: equal constructs rendered at equal indent levels produce identical
text. -/
theorem C8_render_deterministic (c₁ c₂ : RustComponent) (n₁ n₂ : Nat)
    (hc : c₁ = c₂) (hn : n₁ = n₂) :
    RustComponent.to_rust_string c₁ n₁ = RustComponent.to_rust_string c₂ n₂ := by
  rw [hc, hn]

/-- C8 witness: the same text construct rendered twice at level 0. -/
theorem C8_render_deterministic_witness :
    RustComponent.to_rust_string (.Text (RustText.new "x")) 0 =
      RustComponent.to_rust_string (.Text (RustText.new "x")) 0 :=
  C8_render_deterministic (.Text (RustText.new "x")) (.Text (RustText.new "x")) 0 0 rfl rfl



theorem variable_render_defaults (nm : String) :
    RustVariable.to_rust_string (RustVariable.new_let nm) 0 = "let " ++ nm ++ ";" := by
  simp [RustVariable.to_rust_string, RustVariable.new_let, sjoin_cons, sjoin_nil,
    sempty_append, sappend_empty, sappend_assoc, indent_string, strRepeat]

theorem method_render_defaults (nm : String) :
    RustMethod.to_rust_string (RustMethod.new nm) 0 =
      "fn " ++ nm ++ "(" ++ ") " ++ "\x7b\n" ++ "\x7d\n" := by
  simp [RustMethod.to_rust_string, RustMethod.new, sjoin_cons, sjoin_nil, rustLines,
    create_template_string, create_lifetime_string, joinSep,
    sempty_append, sappend_empty, sappend_assoc, indent_string, strRepeat]

theorem struct_render_defaults (nm : String) :
    RustStruct.to_rust_string (RustStruct.new nm) 0 =
      "struct " ++ nm ++ " \x7b" ++ "\n" ++ "\x7d" ++ "\n" := by
  simp [RustStruct.to_rust_string, RustStruct.new, sjoin_cons, sjoin_nil,
    create_template_string, create_lifetime_string, joinSep,
    sempty_append, sappend_empty, sappend_assoc, indent_string, strRepeat]

theorem enum_render_defaults (nm : String) :
    RustEnum.to_rust_string (RustEnum.new nm) 0 =
      "enum " ++ nm ++ " \x7b" ++ "\n" ++ "\x7d" ++ "\n" := by
  simp [RustEnum.to_rust_string, RustEnum.new, sjoin_cons, sjoin_nil,
    create_template_string, create_lifetime_string, joinSep,
    sempty_append, sappend_empty, sappend_assoc, indent_string, strRepeat]

theorem module_render_defaults (nm : String) :
    RustModule.to_rust_string (RustModule.new nm) 0 =
      "mod " ++ nm ++ " \x7b\n" ++ "\x7d\n" := by
  simp only [RustModule.new, RustModule.to_rust_string, componentsRendered]
  simp [sjoin_cons, sjoin_nil, sempty_append, sappend_empty, sappend_assoc,
    indent_string, strRepeat]

theorem impl_render_defaults (nm : String) :
    RustImplementation.to_rust_string (RustImplementation.new nm) 0 =
      "impl" ++ " " ++ nm ++ " \x7b" ++ "\n" ++ "\x7d\n" := by
  simp only [RustImplementation.new, RustImplementation.to_rust_string, implComponentLines]
  simp [joinSep, create_template_string, create_lifetime_string,
    sempty_append, sappend_empty, sappend_assoc, indent_string, strRepeat]

theorem empty_variant_render_defaults (nm : String) :
    EnumVariant.to_rust_string (EnumVariant.new_empty nm) 0 = nm ++ "," := by
  simp [EnumVariant.to_rust_string, EnumVariant.new_empty,
    sempty_append, sappend_empty, sappend_assoc, indent_string, strRepeat]

theorem text_render_defaults (nm : String) :
    RustText.to_rust_string (RustText.new nm) 0 = nm := by
  simp [RustText.to_rust_string, RustText.new, sempty_append, indent_string, strRepeat]



/-- C7: a construct rendered with every optional field left at its default
renders with no optional punctuation: each default-construct rendering is
exactly the mandatory skeleton, and none of the optional tokens `": "`,
`"-> "`, `" = "`, `"<"`, `">"`, `"pub"` occurs in any default rendering. -/
theorem C7_no_optional_punctuation :
    (∀ nm : String,
      RustVariable.to_rust_string (RustVariable.new_let nm) 0 = "let " ++ nm ++ ";" ∧
      RustMethod.to_rust_string (RustMethod.new nm) 0 =
        "fn " ++ nm ++ "(" ++ ") " ++ "\x7b\n" ++ "\x7d\n" ∧
      RustStruct.to_rust_string (RustStruct.new nm) 0 =
        "struct " ++ nm ++ " \x7b" ++ "\n" ++ "\x7d" ++ "\n" ∧
      RustEnum.to_rust_string (RustEnum.new nm) 0 =
        "enum " ++ nm ++ " \x7b" ++ "\n" ++ "\x7d" ++ "\n" ∧
      RustModule.to_rust_string (RustModule.new nm) 0 =
        "mod " ++ nm ++ " \x7b\n" ++ "\x7d\n" ∧
      RustImplementation.to_rust_string (RustImplementation.new nm) 0 =
        "impl" ++ " " ++ nm ++ " \x7b" ++ "\n" ++ "\x7d\n" ∧
      EnumVariant.to_rust_string (EnumVariant.new_empty nm) 0 = nm ++ "," ∧
      RustText.to_rust_string (RustText.new nm) 0 = nm) ∧
    (([": ", "-> ", " = ", "<", ">", "pub"].all (fun tok =>
        (!strContains (RustVariable.to_rust_string (RustVariable.new_let "x") 0) tok)
        && (!strContains (RustMethod.to_rust_string (RustMethod.new "x") 0) tok)
        && (!strContains (RustStruct.to_rust_string (RustStruct.new "x") 0) tok)
        && (!strContains (RustEnum.to_rust_string (RustEnum.new "x") 0) tok)
        && (!strContains (RustModule.to_rust_string (RustModule.new "x") 0) tok)
        && (!strContains (RustImplementation.to_rust_string (RustImplementation.new "x") 0) tok)
        && (!strContains (EnumVariant.to_rust_string (EnumVariant.new_empty "x") 0) tok)
        && (!strContains (RustText.to_rust_string (RustText.new "x") 0) tok))) = true) := by
  constructor
  · intro nm
    exact ⟨variable_render_defaults nm, method_render_defaults nm,
      struct_render_defaults nm, enum_render_defaults nm, module_render_defaults nm,
      impl_render_defaults nm, empty_variant_render_defaults nm, text_render_defaults nm⟩
  · simp only [variable_render_defaults, method_render_defaults, struct_render_defaults,
      enum_render_defaults, module_render_defaults, impl_render_defaults,
      empty_variant_render_defaults, text_render_defaults]
    decide



theorem sjoin_singleton (s : String) : String.join [s] = s := by
  rw [sjoin_cons, sjoin_nil, sappend_empty]

theorem sjoin_concat (l : List String) (s : String) :
    String.join (l ++ [s]) = String.join l ++ s := by
  rw [sjoin_append, sjoin_singleton]

theorem componentsRendered_map (cs : List RustComponent) (n : Nat) :
    componentsRendered cs n = cs.map (fun c => c.to_rust_string n) := by
  induction cs with
  | nil => simp [componentsRendered]
  | cons c cs ih => simp [componentsRendered, ih]

/-- C9: a module concatenates the fragments of its children with no separator
(first conjunct); the fragment of a variable always ends with a semicolon, never
a newline (second conjunct); a text fragment is the raw text after the
indent prefix, with nothing appended (third conjunct); concretely, the
content following a variable or text child is emitted on the same line
(last two conjuncts). -/
theorem C9_module_inline_fragments :
    (∀ (nm : String) (cs : List RustComponent) (n : Nat),
      RustModule.to_rust_string (.mk nm .Private [] cs "") n =
        indent_string n ++ "mod " ++ nm ++ " \x7b\n" ++
          String.join (cs.map (fun c => c.to_rust_string (n + 1))) ++
          (indent_string n ++ "\x7d\n")) ∧
    (∀ (v : RustVariable) (n : Nat),
      (RustVariable.to_rust_string v n).data.getLast? = some ';') ∧
    (∀ (t : RustText) (n : Nat),
      RustText.to_rust_string t n = indent_string n ++ t.text) ∧
    RustModule.to_rust_string
        (.mk "m" .Private [] [RustComponent.Variable (RustVariable.new_let "x")] "") 0 =
      "mod m \x7b\n    let x;\x7d\n" ∧
    RustModule.to_rust_string
        (.mk "m" .Private []
          [RustComponent.Text (RustText.new "hi"),
           RustComponent.Variable (RustVariable.new_let "x")] "") 0 =
      "mod m \x7b\n    hi    let x;\x7d\n" := by
  refine ⟨?_, ?_, ?_, ?_, ?_⟩
  · intro nm cs n
    simp only [RustModule.to_rust_string, componentsRendered_map, List.map_nil, sjoin_nil]
    simp [sjoin_cons, sjoin_append, sjoin_nil, sappend_assoc, sappend_empty, sempty_append]
  · intro v n
    simp only [RustVariable.to_rust_string]
    rw [sjoin_concat, String.data_append,
      show (";" : String).data = [';'] from rfl]
    exact List.getLast?_concat _
  · intro t n
    rfl
  · simp only [RustModule.to_rust_string, componentsRendered, RustComponent.to_rust_string]
    rfl
  · simp only [RustModule.to_rust_string, componentsRendered, RustComponent.to_rust_string]
    rfl


end Rmod
